import Mathlib

/-!
Shallow embedding of `src/pdf_processor.py` (invoice field extraction).

Strings are modelled as `List Char`; Python floats as exact rationals `ℚ`;
the regular expressions of `PatternExtractor.PATTERNS` are modelled by a
small backtracking matcher whose enumeration order mirrors the semantics of
Python `re.search` with `re.IGNORECASE` (leftmost starting position wins;
at a position, greedy quantifiers try longest first, alternation tries the
left branch first, sequencing backtracks the right component first).
Character classes use the ASCII fragment (the patterns contain only ASCII
literals, and `\s`, `\d` are modelled by their ASCII members).
Fallible Python code (`float(...)` may raise `ValueError`) is modelled with
`Except`; the `try/except` blocks become `match` on the `Except` value.
-/

namespace PdfProc

/-- ASCII whitespace, modelling Python `\s` / `str.strip()` on ASCII text:
space, tab, newline, carriage return, vertical tab, form feed. -/
def wsp (c : Char) : Bool :=
  c == ' ' || c == '\t' || c == '\n' || c == '\r' ||
  c == Char.ofNat 11 || c == Char.ofNat 12

/-- ASCII digit, modelling `\d` and `[0-9]`. -/
def isDigitC (c : Char) : Bool := '0' ≤ c && c ≤ '9'

/-- The class `[0-9,]`. -/
def digitComma (c : Char) : Bool := isDigitC c || c == ','

/-- The class `[\s:]`. -/
def wspColon (c : Char) : Bool := wsp c || c == ':'

/-- The class `[\s\-]` (also written `[\s-]`). -/
def wspDash (c : Char) : Bool := wsp c || c == '-'

/-- The separator class (dash or slash), written in the source as a
two-character class of `-` and the slash. -/
def dashSlash (c : Char) : Bool := c == '-' || c == '/'

/-- The literal `\$`. -/
def isDollar (c : Char) : Bool := c == '$'

/-- The escaped literal `\.`. -/
def isDot (c : Char) : Bool := c == '.'

/-- The class `[A-Z0-9\-]` under `re.IGNORECASE` (so lowercase letters too). -/
def alnumDash (c : Char) : Bool :=
  ('A' ≤ c && c ≤ 'Z') || ('a' ≤ c && c ≤ 'z') || isDigitC c || c == '-'

/-- A literal character under `re.IGNORECASE` (ASCII case folding). -/
def litC (a : Char) (c : Char) : Bool := c.toLower == a.toLower

/-- Python `str.strip()`: drop leading and trailing whitespace. -/
def pyStrip (l : List Char) : List Char :=
  ((l.dropWhile wsp).reverse.dropWhile wsp).reverse

/-- Python `str.split("\n")`. -/
def splitNl : List Char → List (List Char)
  | [] => [[]]
  | c :: rest =>
    if c = '\n' then [] :: splitNl rest
    else
      match splitNl rest with
      | [] => [[c]]
      | l :: ls => (c :: l) :: ls

/-- Python `needle in haystack` substring test (`containsSub needle haystack`). -/
def containsSub (n : List Char) : List Char → Bool
  | [] => n.isEmpty
  | c :: t => n.isPrefixOf (c :: t) || containsSub n t

/-- Python `str.replace(x, "")`: remove every occurrence of the character. -/
def removeAll (x : Char) (l : List Char) : List Char :=
  l.filter (fun c => !(c == x))

/-- Numeric value of a digit string (most significant first). -/
def digitsVal (l : List Char) : ℕ :=
  l.foldl (fun a c => a * 10 + (c.toNat - 48)) 0

/-- Model of Python `float(s)` restricted to unsigned decimal strings
`digits`, `digits.digits`, `.digits`, `digits.` (the only shapes the
extractor can feed it); every other input raises `ValueError`, modelled
as `none`. -/
def pyFloat (l : List Char) : Option ℚ :=
  let intPart := l.takeWhile isDigitC
  let rest := l.dropWhile isDigitC
  if rest = [] then
    if intPart.isEmpty then none else some (digitsVal intPart : ℚ)
  else
    if rest.head? = some '.' ∧ (rest.drop 1).all isDigitC ∧
        (intPart ≠ [] ∨ rest.drop 1 ≠ []) then
      some ((digitsVal intPart : ℚ) +
        (digitsVal (rest.drop 1) : ℚ) / 10 ^ (rest.drop 1).length)
    else none

/-- Regular-expression fragment sufficient for the pattern table: character
classes, sequencing, alternation, greedy option and greedy star over a
class.  Bounded repetitions are encoded with `seq`/`opt`, `+` as
`seq (cls p) (starC p)`. -/
inductive RE where
  | eps : RE
  | cls (p : Char → Bool) : RE
  | seq (a b : RE) : RE
  | alt (a b : RE) : RE
  | opt (a : RE) : RE
  | starC (p : Char → Bool) : RE

/-- Greedy star over a character class: all `(consumed, remaining)` splits,
longest consumed first (the backtracking priority order of `p*`). -/
def starClsC (p : Char → Bool) : List Char → List (List Char × List Char)
  | [] => [([], [])]
  | c :: rest =>
    if p c then
      (starClsC p rest).map (fun pr => (c :: pr.1, pr.2)) ++ [([], c :: rest)]
    else [([], c :: rest)]

/-- All ways an expression matches a prefix of the input, as
`(consumed, remaining)` pairs listed in backtracking priority order. -/
def RE.matchesC : RE → List Char → List (List Char × List Char)
  | .eps, s => [([], s)]
  | .cls _, [] => []
  | .cls p, c :: r => if p c then [([c], r)] else []
  | .seq a b, s =>
    (a.matchesC s).flatMap fun pr =>
      (b.matchesC pr.2).map fun qr => (pr.1 ++ qr.1, qr.2)
  | .alt a b, s => a.matchesC s ++ b.matchesC s
  | .opt a, s => a.matchesC s ++ [([], s)]
  | .starC p, s => starClsC p s

/-- Each pattern of the table has the shape `PRE(GRP)`: a prefix part
followed by a single capturing group ending the pattern. -/
structure Pattern where
  pre : RE
  grp : RE

/-- Anchored match of a pattern at the start of `s`: enumerate the prefix
part's splits in priority order, take the first for which the group also
matches, and return the group's captured (consumed) text — exactly the
backtracking order of the Python engine (nothing follows the group). -/
def matchAt (pat : Pattern) (s : List Char) : Option (List Char) :=
  (pat.pre.matchesC s).findSome? fun pr =>
    ((pat.grp.matchesC pr.2).head?).map Prod.fst

/-- `re.search`: try every starting position left to right, return the
capture of the leftmost successful match. -/
def search (pat : Pattern) : List Char → Option (List Char)
  | [] => matchAt pat []
  | c :: t =>
    match matchAt pat (c :: t) with
    | some cap => some cap
    | none => search pat t

/-- A literal string under `re.IGNORECASE`. -/
def lit (s : List Char) : RE :=
  s.foldr (fun c r => RE.seq (RE.cls (litC c)) r) RE.eps

/-- `\d{1,2}` (greedy). -/
def rep12 : RE := .seq (.cls isDigitC) (.opt (.cls isDigitC))

/-- `\d{2,4}` (greedy). -/
def rep24 : RE :=
  .seq (.cls isDigitC) (.seq (.cls isDigitC)
    (.opt (.seq (.cls isDigitC) (.opt (.cls isDigitC)))))

/-- The date capture `(\d{1,2}<sep>\d{1,2}<sep>\d{2,4})` where `<sep>` is the dash-or-slash class. -/
def dateGrp : RE :=
  .seq rep12 (.seq (.cls dashSlash) (.seq rep12 (.seq (.cls dashSlash) rep24)))

/-- The amount capture `([0-9,]+\.[0-9]{2})`. -/
def amtGrp : RE :=
  .seq (.seq (.cls digitComma) (.starC digitComma))
    (.seq (.cls isDot) (.seq (.cls isDigitC) (.cls isDigitC)))

/-- `([A-Z0-9\-]+)`. -/
def alnumPlus : RE := .seq (.cls alnumDash) (.starC alnumDash)

/-- `([A-Z0-9\-]{4,})`. -/
def alnum4Plus : RE :=
  .seq (.cls alnumDash) (.seq (.cls alnumDash) (.seq (.cls alnumDash)
    (.seq (.cls alnumDash) (.starC alnumDash))))

/-- `[\s:]*\$?` — shared tail of the amount patterns. -/
def amtPre (label : List Char) : Pattern :=
  ⟨.seq (lit label) (.seq (.starC wspColon) (.opt (.cls isDollar))), amtGrp⟩

/-- `Invoice\s*(?:Number|No\.?|#)[\s:]*([A-Z0-9\-]+)` -/
def p_in1 : Pattern :=
  ⟨.seq (lit "Invoice".toList) (.seq (.starC wsp)
    (.seq (.alt (lit "Number".toList)
      (.alt (.seq (lit "No".toList) (.opt (.cls isDot))) (lit "#".toList)))
      (.starC wspColon))), alnumPlus⟩

/-- `Invoice\s*#?[\s:]*([A-Z0-9\-]{4,})` -/
def p_in2 : Pattern :=
  ⟨.seq (lit "Invoice".toList) (.seq (.starC wsp)
    (.seq (.opt (.cls (litC '#'))) (.starC wspColon))), alnum4Plus⟩

/-- `INV[\s\-]?([A-Z0-9\-]+)` -/
def p_in3 : Pattern :=
  ⟨.seq (lit "INV".toList) (.opt (.cls wspDash)), alnumPlus⟩

/-- `Invoice\s*Date[\s:]*(\d{1,2}<sep>\d{1,2}<sep>\d{2,4})` -/
def p_id1 : Pattern :=
  ⟨.seq (lit "Invoice".toList) (.seq (.starC wsp)
    (.seq (lit "Date".toList) (.starC wspColon))), dateGrp⟩

/-- `Date[\s:]*(\d{1,2}<sep>\d{1,2}<sep>\d{2,4})` -/
def p_id2 : Pattern :=
  ⟨.seq (lit "Date".toList) (.starC wspColon), dateGrp⟩

/-- `(\d{1,2}<sep>\d{1,2}<sep>\d{2,4})` where `<sep>` is the dash-or-slash class -/
def p_id3 : Pattern := ⟨.eps, dateGrp⟩

/-- `Due\s*Date[\s:]*(\d{1,2}<sep>\d{1,2}<sep>\d{2,4})` -/
def p_dd1 : Pattern :=
  ⟨.seq (lit "Due".toList) (.seq (.starC wsp)
    (.seq (lit "Date".toList) (.starC wspColon))), dateGrp⟩

/-- `Payment\s*Due[\s:]*(\d{1,2}<sep>\d{1,2}<sep>\d{2,4})` -/
def p_dd2 : Pattern :=
  ⟨.seq (lit "Payment".toList) (.seq (.starC wsp)
    (.seq (lit "Due".toList) (.starC wspColon))), dateGrp⟩

/-- `Total[\s:]*\$?([0-9,]+\.[0-9]{2})` -/
def p_t1 : Pattern := amtPre "Total".toList

/-- `Grand\s*Total[\s:]*\$?([0-9,]+\.[0-9]{2})` -/
def p_t2 : Pattern :=
  ⟨.seq (lit "Grand".toList) (.seq (.starC wsp)
    (.seq (lit "Total".toList) (.seq (.starC wspColon) (.opt (.cls isDollar))))),
   amtGrp⟩

/-- `TOTAL[\s:]*\$?([0-9,]+\.[0-9]{2})` -/
def p_t3 : Pattern := amtPre "TOTAL".toList

/-- `Tax[\s:]*\$?([0-9,]+\.[0-9]{2})` -/
def p_x1 : Pattern := amtPre "Tax".toList

/-- `GST[\s:]*\$?([0-9,]+\.[0-9]{2})` -/
def p_x2 : Pattern := amtPre "GST".toList

/-- `VAT[\s:]*\$?([0-9,]+\.[0-9]{2})` -/
def p_x3 : Pattern := amtPre "VAT".toList

/-- `Subtotal[\s:]*\$?([0-9,]+\.[0-9]{2})` -/
def p_s1 : Pattern := amtPre "Subtotal".toList

/-- `Sub[\s-]?Total[\s:]*\$?([0-9,]+\.[0-9]{2})` -/
def p_s2 : Pattern :=
  ⟨.seq (lit "Sub".toList) (.seq (.opt (.cls wspDash))
    (.seq (lit "Total".toList) (.seq (.starC wspColon) (.opt (.cls isDollar))))),
   amtGrp⟩

/-- `PatternExtractor.PATTERNS.get(field_type, [])`: the ordered rule
catalog per field type; unknown field types give the empty list. -/
def PATTERNS (ft : String) : List Pattern :=
  if ft = "invoice_number" then [p_in1, p_in2, p_in3]
  else if ft = "invoice_date" then [p_id1, p_id2, p_id3]
  else if ft = "due_date" then [p_dd1, p_dd2]
  else if ft = "total_amount" then [p_t1, p_t2, p_t3]
  else if ft = "tax_amount" then [p_x1, p_x2, p_x3]
  else if ft = "subtotal" then [p_s1, p_s2]
  else []

/-- The recognized field types (the keys of `PATTERNS`). -/
def recognizedB (ft : String) : Bool :=
  ft = "invoice_number" || ft = "invoice_date" || ft = "due_date" ||
  ft = "total_amount" || ft = "tax_amount" || ft = "subtotal"

/-- Loop body of `PatternExtractor.extract_field`: try the rules in order
starting at index `i`; the first match returns the stripped capture with
confidence `1.0 - pattern_idx * 0.1`. -/
def extractFieldAux (text : List Char) : List Pattern → ℕ → Option (List Char) × ℚ
  | [], _ => (none, 0)
  | pat :: rest, i =>
    match search pat text with
    | some cap => (some (pyStrip cap), 1 - (i : ℚ) / 10)
    | none => extractFieldAux text rest (i + 1)

/-- `PatternExtractor.extract_field`. -/
def extract_field (text : List Char) (ft : String) : Option (List Char) × ℚ :=
  extractFieldAux text (PATTERNS ft) 0

/-- Stoplist of header keywords skipped by the vendor-name heuristic. -/
def stoplist : List (List Char) :=
  ["invoice".toList, "bill".toList, "receipt".toList,
   "quote".toList, "date:".toList, "invoice #".toList]

/-- Qualification test of one line inside `extract_vendor_name`: stripped
line nonempty, length strictly between 5 and 100, lowercased content free
of every stoplist keyword. -/
def vendorOk (line : List Char) : Bool :=
  let stripped := pyStrip line
  !stripped.isEmpty && decide (5 < stripped.length) &&
    decide (stripped.length < 100) &&
    stoplist.all (fun kw => !(containsSub kw (stripped.map Char.toLower)))

/-- Loop of `PatternExtractor.extract_vendor_name` over the sliced lines. -/
def vendorScan : List (List Char) → List Char × ℚ
  | [] => ([], 0)
  | line :: rest =>
    if vendorOk line then (pyStrip line, 7 / 10) else vendorScan rest

/-- `PatternExtractor.extract_vendor_name`: scan `text.split("\n")[:20]`. -/
def extract_vendor_name (text : List Char) : List Char × ℚ :=
  vendorScan ((splitNl text).take 20)

/-- One entry of `PatternExtractor.extract_amounts`: extract one amount
field; a truthy match is parsed with
`float(s.replace(",", "").replace("$", ""))`, whose `ValueError` is
modelled as `Except.error`. -/
def amountKey (text : List Char) (ft : String) : Except Unit (Option (ℚ × ℚ)) :=
  let r := extract_field text ft
  match r.1 with
  | none => .ok none
  | some s =>
    if s.isEmpty then .ok none
    else
      match pyFloat (removeAll '$' (removeAll ',' s)) with
      | some v => .ok (some (v, r.2))
      | none => .error ()

/-- The result dictionary of `extract_amounts`, with its three possible
keys `"total"`, `"tax"`, `"subtotal"` made explicit; `none` models the key
being absent. -/
structure Amounts where
  total : Option (ℚ × ℚ)
  tax : Option (ℚ × ℚ)
  subtotal : Option (ℚ × ℚ)
deriving DecidableEq

/-- `PatternExtractor.extract_amounts`: total, then tax, then subtotal. -/
def extract_amounts (text : List Char) : Except Unit Amounts :=
  match amountKey text "total_amount" with
  | .error e => .error e
  | .ok t =>
    match amountKey text "tax_amount" with
    | .error e => .error e
    | .ok x =>
      match amountKey text "subtotal" with
      | .error e => .error e
      | .ok s => .ok ⟨t, x, s⟩

/-- The `ExtractedInvoice` dataclass (strings as `List Char`, floats as
`ℚ`; `line_items` is never populated by the extractor). -/
structure ExtractedInvoice where
  file_name : List Char
  invoice_number : List Char
  invoice_date : List Char
  due_date : List Char
  vendor_name : List Char
  vendor_address : List Char
  customer_name : List Char
  customer_address : List Char
  subtotal : ℚ
  tax_amount : ℚ
  total_amount : ℚ
  currency : List Char
  line_items : List (List Char)
  raw_text : List Char
  confidence_score : ℚ
deriving DecidableEq

/-- `ExtractedInvoice(file_name=...)` with all dataclass defaults. -/
def defaultInvoice (fn : List Char) : ExtractedInvoice :=
  ⟨fn, [], [], [], [], [], [], [], 0, 0, 0, "USD".toList, [], [], 0⟩

/-- Modelled from `pathlib.Path(pdf_path).name` (the `pathlib` library is
outside the repository): the last nonempty slash-separated component of
the path. -/
def pathName (p : List Char) : List Char :=
  (splitComponents p).foldl (fun acc comp => if comp.isEmpty then acc else comp) []
where
  /-- Split on the path separator. -/
  splitComponents : List Char → List (List Char)
    | [] => [[]]
    | c :: rest =>
      if c = '/' then [] :: splitComponents rest
      else
        match splitComponents rest with
        | [] => [[c]]
        | l :: ls => (c :: l) :: ls

/-- The conditional amount assignment `if key in amounts: field, _ = amounts[key]`
combined with the field's dataclass default `0.0`. -/
def amountOr0 : Option (ℚ × ℚ) → ℚ
  | some tv => tv.1
  | none => 0

/-- The aggregate-confidence computation of `extract_invoice_fields`:
keep the contributions `> 0`, return their mean, or `0` when none
survive. -/
def aggConfidence (contribs : List ℚ) : ℚ :=
  let valid := contribs.filter fun c => decide (0 < c)
  if valid = [] then 0 else valid.sum / (valid.length : ℚ)

/-- `InvoiceFieldExtractor.extract_invoice_fields`, with the external
PDF-decoding collaborator (`PDFContentReader.extract_text`) abstracted as
the `decoded : Except Unit (List Char)` argument: `.error` models the
decoder raising.  The surrounding `try/except` catches any exception and
returns the record as populated so far; after decoding, field extraction
can only raise inside `extract_amounts` (`float` parsing), so the two
`match`es cover exactly the code's exception behavior.  The record is
written with all fields explicit: the fields never assigned keep their
dataclass defaults from `defaultInvoice`. -/
def extract_invoice_fields (pdfPath : List Char)
    (decoded : Except Unit (List Char)) : ExtractedInvoice :=
  let fn := pathName pdfPath
  match decoded with
  | .error _ => defaultInvoice fn
  | .ok raw =>
    let frNum := extract_field raw "invoice_number"
    let frDate := extract_field raw "invoice_date"
    let frDue := extract_field raw "due_date"
    match extract_amounts raw with
    | .error _ =>
      ⟨fn, frNum.1.getD [], frDate.1.getD [], frDue.1.getD [],
       [], [], [], [], 0, 0, 0, "USD".toList, [], raw, 0⟩
    | .ok am =>
      ⟨fn, frNum.1.getD [], frDate.1.getD [], frDue.1.getD [],
       (extract_vendor_name raw).1, [], [], [],
       amountOr0 am.subtotal, amountOr0 am.tax, amountOr0 am.total,
       "USD".toList, [], raw,
       aggConfidence
         [if frNum.1.getD [] ≠ [] then frNum.2 else 0,
          if frDate.1.getD [] ≠ [] then frDate.2 else 0,
          if 0 < amountOr0 am.total then 8 / 10 else 0]⟩

/-- `InvoiceFieldExtractor.extract_multiple_invoices`, with the directory
glob abstracted as the given list of `(path, decode result)` pairs.  The
loop's own `try/except` never fires because `extract_invoice_fields`
catches every exception internally, so each file contributes exactly one
record. -/
def extract_multiple_invoices
    (files : List (List Char × Except Unit (List Char))) :
    List ExtractedInvoice :=
  files.map fun f => extract_invoice_fields f.1 f.2

/-! ### Unfolding lemmas for the extraction pipeline -/

lemma vendorScan_cons_false (l : List Char) (rest : List (List Char))
    (h : vendorOk l = false) : vendorScan (l :: rest) = vendorScan rest := by
  simp [vendorScan, h]

lemma vendorScan_cons_true (l : List Char) (rest : List (List Char))
    (h : vendorOk l = true) : vendorScan (l :: rest) = (pyStrip l, 7 / 10) := by
  simp [vendorScan, h]

lemma extractFieldAux_nil (text : List Char) (i : ℕ) :
    extractFieldAux text [] i = (none, 0) := rfl

lemma extractFieldAux_cons_some (text : List Char) (pat : Pattern)
    (rest : List Pattern) (i : ℕ) (cap : List Char)
    (h : search pat text = some cap) :
    extractFieldAux text (pat :: rest) i =
      (some (pyStrip cap), 1 - (i : ℚ) / 10) := by
  simp [extractFieldAux, h]

lemma extractFieldAux_cons_none (text : List Char) (pat : Pattern)
    (rest : List Pattern) (i : ℕ) (h : search pat text = none) :
    extractFieldAux text (pat :: rest) i = extractFieldAux text rest (i + 1) := by
  simp [extractFieldAux, h]

lemma PATTERNS_invoice_number : PATTERNS "invoice_number" = [p_in1, p_in2, p_in3] := rfl

lemma PATTERNS_invoice_date : PATTERNS "invoice_date" = [p_id1, p_id2, p_id3] := rfl

lemma PATTERNS_due_date : PATTERNS "due_date" = [p_dd1, p_dd2] := rfl

lemma PATTERNS_total : PATTERNS "total_amount" = [p_t1, p_t2, p_t3] := rfl

lemma PATTERNS_tax : PATTERNS "tax_amount" = [p_x1, p_x2, p_x3] := rfl

lemma PATTERNS_subtotal : PATTERNS "subtotal" = [p_s1, p_s2] := rfl

lemma amountKey_of_none (text : List Char) (ft : String)
    (h : (extract_field text ft).1 = none) :
    amountKey text ft = .ok none := by
  simp [amountKey, h]

lemma amountKey_of_some (text : List Char) (ft : String) (s : List Char) (v : ℚ)
    (h : (extract_field text ft).1 = some s) (hs : s.isEmpty = false)
    (hv : pyFloat (removeAll '$' (removeAll ',' s)) = some v) :
    amountKey text ft = .ok (some (v, (extract_field text ft).2)) := by
  simp [amountKey, h, hs, hv]

lemma extract_amounts_eq (text : List Char) (t x s : Option (ℚ × ℚ))
    (ht : amountKey text "total_amount" = .ok t)
    (hx : amountKey text "tax_amount" = .ok x)
    (hs : amountKey text "subtotal" = .ok s) :
    extract_amounts text = .ok ⟨t, x, s⟩ := by
  simp [extract_amounts, ht, hx, hs]

lemma eif_error (p : List Char) :
    extract_invoice_fields p (.error ()) = defaultInvoice (pathName p) := rfl

lemma eif_ok (p raw : List Char) (am : Amounts)
    (ham : extract_amounts raw = .ok am) :
    extract_invoice_fields p (.ok raw) =
      ⟨pathName p, (extract_field raw "invoice_number").1.getD [],
       (extract_field raw "invoice_date").1.getD [],
       (extract_field raw "due_date").1.getD [],
       (extract_vendor_name raw).1, [], [], [],
       amountOr0 am.subtotal, amountOr0 am.tax, amountOr0 am.total,
       "USD".toList, [], raw,
       aggConfidence
         [if (extract_field raw "invoice_number").1.getD [] ≠ [] then
            (extract_field raw "invoice_number").2 else 0,
          if (extract_field raw "invoice_date").1.getD [] ≠ [] then
            (extract_field raw "invoice_date").2 else 0,
          if 0 < amountOr0 am.total then 8 / 10 else 0]⟩ := by
  simp only [extract_invoice_fields, ham]

/-! ### Inversion lemmas for the matcher -/

lemma findSome?_some {α β : Type} (f : α → Option β) (b : β) :
    ∀ l : List α, l.findSome? f = some b → ∃ a ∈ l, f a = some b := by
  intro l
  induction l with
  | nil => intro h; simp [List.findSome?] at h
  | cons x t ih =>
    intro h
    rw [List.findSome?] at h
    cases hfx : f x with
    | some y =>
      rw [hfx] at h
      exact ⟨x, by simp, by rw [hfx]; exact h⟩
    | none =>
      rw [hfx] at h
      obtain ⟨a, ha, hfa⟩ := ih h
      exact ⟨a, by simp [ha], hfa⟩

lemma head?_mem {α : Type} {l : List α} {a : α} (h : l.head? = some a) : a ∈ l := by
  cases l with
  | nil => simp at h
  | cons x t =>
    simp only [List.head?, Option.some.injEq] at h
    simp [h]

lemma starClsC_mem (p : Char → Bool) :
    ∀ (s con rem : List Char), (con, rem) ∈ starClsC p s →
      (∀ c ∈ con, p c = true) ∧ s = con ++ rem := by
  intro s
  induction s with
  | nil =>
    intro con rem h
    simp only [starClsC, List.mem_singleton, Prod.mk.injEq] at h
    obtain ⟨rfl, rfl⟩ := h
    simp
  | cons c t ih =>
    intro con rem h
    simp only [starClsC] at h
    cases hp : p c with
    | true =>
      rw [if_pos hp] at h
      rcases List.mem_append.mp h with hm | hm
      · obtain ⟨⟨con2, rem2⟩, hmem, heq⟩ := List.mem_map.mp hm
        rw [Prod.mk.injEq] at heq
        obtain ⟨hcon, hrem⟩ := heq
        obtain ⟨hall, hsplit⟩ := ih con2 rem2 hmem
        constructor
        · intro d hd
          rw [← hcon] at hd
          rcases List.mem_cons.mp hd with rfl | hd2
          · exact hp
          · exact hall d hd2
        · rw [← hcon, ← hrem]
          simp [hsplit]
      · simp only [List.mem_singleton, Prod.mk.injEq] at hm
        obtain ⟨rfl, rfl⟩ := hm
        simp
    | false =>
      rw [if_neg (by simp [hp])] at h
      simp only [List.mem_singleton, Prod.mk.injEq] at h
      obtain ⟨rfl, rfl⟩ := h
      simp

lemma matchesC_eps (s con rem : List Char)
    (h : (con, rem) ∈ RE.eps.matchesC s) : con = [] ∧ rem = s := by
  simp only [RE.matchesC, List.mem_singleton, Prod.mk.injEq] at h
  exact h

lemma matchesC_cls (p : Char → Bool) (s con rem : List Char)
    (h : (con, rem) ∈ (RE.cls p).matchesC s) :
    ∃ c, p c = true ∧ con = [c] ∧ s = c :: rem := by
  cases s with
  | nil => simp [RE.matchesC] at h
  | cons c t =>
    simp only [RE.matchesC] at h
    cases hp : p c with
    | true =>
      rw [if_pos hp] at h
      simp only [List.mem_singleton, Prod.mk.injEq] at h
      obtain ⟨rfl, rfl⟩ := h
      exact ⟨c, hp, rfl, rfl⟩
    | false => rw [if_neg (by simp [hp])] at h; simp at h

lemma matchesC_seq (a b : RE) (s con rem : List Char)
    (h : (con, rem) ∈ (RE.seq a b).matchesC s) :
    ∃ c1 m c2, (c1, m) ∈ a.matchesC s ∧ (c2, rem) ∈ b.matchesC m ∧
      con = c1 ++ c2 := by
  simp only [RE.matchesC, List.mem_flatMap, List.mem_map] at h
  obtain ⟨⟨c1, m⟩, hmem, ⟨c2, r2⟩, hmem2, heq⟩ := h
  obtain ⟨rfl, rfl⟩ : c1 ++ c2 = con ∧ r2 = rem := by simpa using heq
  exact ⟨c1, m, c2, hmem, hmem2, rfl⟩

lemma matchesC_starC (p : Char → Bool) (s con rem : List Char)
    (h : (con, rem) ∈ (RE.starC p).matchesC s) :
    (∀ c ∈ con, p c = true) ∧ s = con ++ rem :=
  starClsC_mem p s con rem h

lemma matchAt_some (pat : Pattern) (s cap : List Char)
    (h : matchAt pat s = some cap) :
    ∃ r rem, (cap, rem) ∈ pat.grp.matchesC r := by
  obtain ⟨pr, _, hf⟩ := findSome?_some _ _ _ h
  cases hh : (pat.grp.matchesC pr.2).head? with
  | none => rw [hh] at hf; simp at hf
  | some q =>
    rw [hh] at hf
    simp only [Option.map_some', Option.some.injEq] at hf
    refine ⟨pr.2, q.2, ?_⟩
    have hq : q ∈ pat.grp.matchesC pr.2 := head?_mem hh
    have : q = (cap, q.2) := by
      rw [← hf]
    rw [← this]
    exact hq

lemma search_some (pat : Pattern) :
    ∀ (s cap : List Char), search pat s = some cap →
      ∃ r rem, (cap, rem) ∈ pat.grp.matchesC r := by
  intro s
  induction s with
  | nil => intro cap h; exact matchAt_some _ _ _ h
  | cons c t ih =>
    intro cap h
    rw [search] at h
    cases hm : matchAt pat (c :: t) with
    | some cap2 =>
      rw [hm] at h
      cases h
      exact matchAt_some _ _ _ hm
    | none =>
      rw [hm] at h
      exact ih cap h

/-! ### Shape of amount captures -/

/-- Shape of every capture of `([0-9,]+\.[0-9]{2})`: a nonempty run of
digits and commas, a dot, then exactly two digits. -/
def amtShape (cap : List Char) : Prop :=
  ∃ ds d1 d2, cap = ds ++ '.' :: [d1, d2] ∧ ds ≠ [] ∧
    (∀ c ∈ ds, digitComma c = true) ∧ isDigitC d1 = true ∧ isDigitC d2 = true

lemma amtGrp_shape (r con rem : List Char)
    (h : (con, rem) ∈ amtGrp.matchesC r) : amtShape con := by
  obtain ⟨c1, m, c2, h1, h2, hcon⟩ := matchesC_seq _ _ _ _ _ h
  obtain ⟨c11, m1, c12, h11, h12, hc1⟩ := matchesC_seq _ _ _ _ _ h1
  obtain ⟨ch, hch, hc11, _⟩ := matchesC_cls _ _ _ _ h11
  obtain ⟨hall, _⟩ := matchesC_starC _ _ _ _ h12
  obtain ⟨c21, m2, c22, h21, h22, hc2⟩ := matchesC_seq _ _ _ _ _ h2
  obtain ⟨chd, hchd, hc21, _⟩ := matchesC_cls _ _ _ _ h21
  obtain ⟨c221, m3, c222, h221, h222, hc22⟩ := matchesC_seq _ _ _ _ _ h22
  obtain ⟨d1, hd1, hc221, _⟩ := matchesC_cls _ _ _ _ h221
  obtain ⟨d2, hd2, hc222, _⟩ := matchesC_cls _ _ _ _ h222
  have hdot : chd = '.' := by
    have := hchd
    simp only [isDot, beq_iff_eq] at this
    exact this
  refine ⟨ch :: c12, d1, d2, ?_, by simp, ?_, hd1, hd2⟩
  · rw [hcon, hc1, hc11, hc2, hc21, hc22, hc221, hc222, hdot]
    simp
  · intro c hc
    rcases List.mem_cons.mp hc with rfl | hc2
    · exact hch
    · exact hall c hc2

lemma amtShape_ne_nil {cap : List Char} (h : amtShape cap) : cap ≠ [] := by
  obtain ⟨ds, d1, d2, rfl, _, _, _, _⟩ := h
  simp

/-! ### Character-class facts -/

lemma wsp_false_of_isDigitC (c : Char) (h : isDigitC c = true) : wsp c = false := by
  by_contra hw
  rw [Bool.not_eq_false] at hw
  simp only [wsp, Bool.or_eq_true, beq_iff_eq] at hw
  rcases hw with ((((rfl | rfl) | rfl) | rfl) | rfl) | rfl <;>
    exact absurd h (by decide)

lemma wsp_false_of_digitComma (c : Char) (h : digitComma c = true) : wsp c = false := by
  simp only [digitComma, Bool.or_eq_true, beq_iff_eq] at h
  rcases h with hd | rfl
  · exact wsp_false_of_isDigitC c hd
  · decide

lemma beq_comma_false_of_isDigitC (c : Char) (h : isDigitC c = true) :
    (c == ',') = false := by
  by_contra hb
  rw [Bool.not_eq_false, beq_iff_eq] at hb
  subst hb
  exact absurd h (by decide)

/-! ### `pyStrip` and `pyFloat` facts -/

lemma dropWhile_eq_self_of_head (p : Char → Bool) (l : List Char)
    (h : ∀ c ∈ l, p c = false) : l.dropWhile p = l := by
  cases l with
  | nil => rfl
  | cons c t =>
    have hc : p c = false := h c (by simp)
    simp [List.dropWhile_cons, hc]

lemma pyStrip_eq_self (l : List Char) (h : ∀ c ∈ l, wsp c = false) :
    pyStrip l = l := by
  unfold pyStrip
  rw [dropWhile_eq_self_of_head wsp l h,
    dropWhile_eq_self_of_head wsp l.reverse (by intro c hc; exact h c (List.mem_reverse.mp hc)),
    List.reverse_reverse]

lemma amtShape_no_wsp {cap : List Char} (h : amtShape cap) :
    ∀ c ∈ cap, wsp c = false := by
  obtain ⟨ds, d1, d2, rfl, _, hds, hd1, hd2⟩ := h
  intro c hc
  rcases List.mem_append.mp hc with hm | hm
  · exact wsp_false_of_digitComma c (hds c hm)
  · rcases List.mem_cons.mp hm with rfl | hm2
    · decide
    · rcases List.mem_cons.mp hm2 with rfl | hm3
      · exact wsp_false_of_isDigitC c hd1
      · rcases List.mem_cons.mp hm3 with rfl | hm4
        · exact wsp_false_of_isDigitC c hd2
        · simp at hm4

lemma takeWhile_append_stop (p : Char → Bool) (x : Char) (l2 : List Char)
    (hx : p x = false) :
    ∀ l1 : List Char, (∀ c ∈ l1, p c = true) →
      (l1 ++ x :: l2).takeWhile p = l1 ∧ (l1 ++ x :: l2).dropWhile p = x :: l2 := by
  intro l1
  induction l1 with
  | nil =>
    intro _
    simp [List.takeWhile_cons, List.dropWhile_cons, hx]
  | cons c t ih =>
    intro h
    have hc : p c = true := h c (by simp)
    have ht := ih (by intro d hd; exact h d (by simp [hd]))
    simp [List.takeWhile_cons, List.dropWhile_cons, hc, ht.1, ht.2]

lemma digitsVal_cast_nonneg (l : List Char) : (0 : ℚ) ≤ (digitsVal l : ℚ) := by
  exact_mod_cast Nat.zero_le _

lemma pyFloat_of_shape (ds : List Char) (d1 d2 : Char)
    (hall : ∀ c ∈ ds, isDigitC c = true)
    (hd1 : isDigitC d1 = true) (hd2 : isDigitC d2 = true) :
    pyFloat (ds ++ '.' :: [d1, d2]) =
      some ((digitsVal ds : ℚ) + (digitsVal [d1, d2] : ℚ) / 10 ^ 2) ∧
      (0 : ℚ) ≤ (digitsVal ds : ℚ) + (digitsVal [d1, d2] : ℚ) / 10 ^ 2 := by
  have hdot : isDigitC '.' = false := by decide
  obtain ⟨htake, hdrop⟩ := takeWhile_append_stop isDigitC '.' [d1, d2] hdot ds hall
  constructor
  · unfold pyFloat
    rw [htake, hdrop]
    rw [if_neg (by simp)]
    rw [if_pos (by refine ⟨by simp, by simp [hd1, hd2], Or.inr (by simp)⟩)]
    simp
  · have h1 : (0 : ℚ) ≤ (digitsVal ds : ℚ) := digitsVal_cast_nonneg ds
    have h2 : (0 : ℚ) ≤ (digitsVal [d1, d2] : ℚ) / 10 ^ 2 := by
      apply div_nonneg (digitsVal_cast_nonneg _)
      norm_num
    linarith

lemma removeAll_amt (ds : List Char) (d1 d2 : Char)
    (hds : ∀ c ∈ ds, digitComma c = true)
    (hd1 : isDigitC d1 = true) (hd2 : isDigitC d2 = true) :
    removeAll '$' (removeAll ',' (ds ++ '.' :: [d1, d2])) =
      ds.filter (fun c => !(c == ',')) ++ '.' :: [d1, d2] ∧
      ∀ c ∈ ds.filter (fun c => !(c == ',')), isDigitC c = true := by
  have hmemd : ∀ c ∈ ds.filter (fun c => !(c == ',')), isDigitC c = true := by
    intro c hc
    obtain ⟨hcd, hne⟩ := List.mem_filter.mp hc
    have hdc := hds c hcd
    simp only [digitComma, Bool.or_eq_true] at hdc
    rcases hdc with hd | hcomma
    · exact hd
    · rw [hcomma] at hne
      simp at hne
  constructor
  · unfold removeAll
    rw [List.filter_append, List.filter_append]
    have h1 : List.filter (fun c => !(c == ',')) ('.' :: [d1, d2]) = '.' :: [d1, d2] := by
      simp [List.filter_cons, beq_comma_false_of_isDigitC d1 hd1,
        beq_comma_false_of_isDigitC d2 hd2]
    rw [h1]
    have h2 : List.filter (fun c => !(c == '$')) (ds.filter (fun c => !(c == ','))) =
        ds.filter (fun c => !(c == ',')) := by
      rw [List.filter_eq_self]
      intro c hc
      have := hmemd c hc
      by_contra hb
      simp only [Bool.not_eq_true, Bool.not_eq_false', beq_iff_eq] at hb
      subst hb
      exact absurd this (by decide)
    have h3 : List.filter (fun c => !(c == '$')) ('.' :: [d1, d2]) = '.' :: [d1, d2] := by
      have hne1 : (d1 == '$') = false := by
        by_contra hb
        rw [Bool.not_eq_false, beq_iff_eq] at hb
        subst hb
        exact absurd hd1 (by decide)
      have hne2 : (d2 == '$') = false := by
        by_contra hb
        rw [Bool.not_eq_false, beq_iff_eq] at hb
        subst hb
        exact absurd hd2 (by decide)
      simp [List.filter_cons, hne1, hne2]
    rw [h2, h3]
  · exact hmemd

lemma pyFloat_amt (cap : List Char) (h : amtShape cap) :
    ∃ q, pyFloat (removeAll '$' (removeAll ',' cap)) = some q ∧ 0 ≤ q := by
  obtain ⟨ds, d1, d2, rfl, _, hds, hd1, hd2⟩ := h
  obtain ⟨hrw, hdig⟩ := removeAll_amt ds d1 d2 hds hd1 hd2
  rw [hrw]
  obtain ⟨hval, hpos⟩ :=
    pyFloat_of_shape (ds.filter (fun c => !(c == ','))) d1 d2 hdig hd1 hd2
  exact ⟨_, hval, hpos⟩

/-! ### Structure of `extract_field` -/

lemma extractFieldAux_fst_none (text : List Char) :
    ∀ (pats : List Pattern) (i : ℕ) (c : ℚ),
      extractFieldAux text pats i = (none, c) → c = 0 := by
  intro pats
  induction pats with
  | nil =>
    intro i c h
    rw [extractFieldAux_nil, Prod.mk.injEq] at h
    exact h.2.symm
  | cons pat rest ih =>
    intro i c h
    cases hs : search pat text with
    | some cap =>
      rw [extractFieldAux_cons_some _ _ _ _ _ hs, Prod.mk.injEq] at h
      exact absurd h.1 (by simp)
    | none =>
      rw [extractFieldAux_cons_none _ _ _ _ hs] at h
      exact ih _ _ h

lemma extractFieldAux_fst_some (text : List Char) :
    ∀ (pats : List Pattern) (i0 : ℕ) (v : List Char) (c : ℚ),
      extractFieldAux text pats i0 = (some v, c) →
      ∃ j pat cap, pats[j]? = some pat ∧ pat ∈ pats ∧
        search pat text = some cap ∧
        (∀ k pk, k < j → pats[k]? = some pk → search pk text = none) ∧
        v = pyStrip cap ∧ c = 1 - ((i0 + j : ℕ) : ℚ) / 10 ∧ j < pats.length := by
  intro pats
  induction pats with
  | nil =>
    intro i0 v c h
    rw [extractFieldAux_nil, Prod.mk.injEq] at h
    exact absurd h.1 (by simp)
  | cons pat rest ih =>
    intro i0 v c h
    cases hs : search pat text with
    | some cap =>
      rw [extractFieldAux_cons_some _ _ _ _ _ hs, Prod.mk.injEq] at h
      obtain ⟨hv, hc⟩ := h
      refine ⟨0, pat, cap, by simp, by simp, hs, ?_, ?_, ?_, by simp⟩
      · intro k pk hk hpk
        exact absurd hk (Nat.not_lt_zero k)
      · exact (Option.some.injEq _ _ ▸ hv).symm
      · rw [← hc]
        norm_num
    | none =>
      rw [extractFieldAux_cons_none _ _ _ _ hs] at h
      obtain ⟨j, pat2, cap, hget, hmem, hsearch, hbefore, hv, hc, hlen⟩ :=
        ih (i0 + 1) v c h
      refine ⟨j + 1, pat2, cap, by simpa using hget, by simp [hmem], hsearch,
        ?_, hv, ?_, by simpa using hlen⟩
      · intro k pk hk hpk
        cases k with
        | zero =>
          simp only [List.getElem?_cons_zero, Option.some.injEq] at hpk
          rw [← hpk]
          exact hs
        | succ k2 =>
          apply hbefore k2 pk (by omega)
          simpa using hpk
      · rw [hc]
        push_cast
        ring

lemma PATTERNS_length (ft : String) : (PATTERNS ft).length ≤ 3 := by
  unfold PATTERNS
  split_ifs <;> simp

lemma extract_field_conf_bounds (text : List Char) (ft : String) :
    0 ≤ (extract_field text ft).2 ∧ (extract_field text ft).2 ≤ 1 := by
  rcases hr : extract_field text ft with ⟨v?, c⟩
  cases v? with
  | none =>
    have h0 := extractFieldAux_fst_none text (PATTERNS ft) 0 c hr
    simp [h0]
  | some v =>
    obtain ⟨j, pat, cap, _, _, _, _, _, hc, hlen⟩ :=
      extractFieldAux_fst_some text (PATTERNS ft) 0 v c hr
    have hj : j ≤ 2 := by
      have := PATTERNS_length ft
      omega
    have hjq : ((0 + j : ℕ) : ℚ) ≤ 2 := by exact_mod_cast by omega
    have hjq0 : (0 : ℚ) ≤ ((0 + j : ℕ) : ℚ) := by exact_mod_cast Nat.zero_le _
    rw [hc]
    constructor <;> [linarith; linarith]

lemma amount_pat_grp (ft : String)
    (hft : ft = "total_amount" ∨ ft = "tax_amount" ∨ ft = "subtotal")
    (pat : Pattern) (hmem : pat ∈ PATTERNS ft) : pat.grp = amtGrp := by
  rcases hft with rfl | rfl | rfl
  · rw [PATTERNS_total] at hmem
    rcases List.mem_cons.mp hmem with rfl | hmem2
    · rfl
    rcases List.mem_cons.mp hmem2 with rfl | hmem3
    · rfl
    rcases List.mem_cons.mp hmem3 with rfl | hmem4
    · rfl
    · simp at hmem4
  · rw [PATTERNS_tax] at hmem
    rcases List.mem_cons.mp hmem with rfl | hmem2
    · rfl
    rcases List.mem_cons.mp hmem2 with rfl | hmem3
    · rfl
    rcases List.mem_cons.mp hmem3 with rfl | hmem4
    · rfl
    · simp at hmem4
  · rw [PATTERNS_subtotal] at hmem
    rcases List.mem_cons.mp hmem with rfl | hmem2
    · rfl
    rcases List.mem_cons.mp hmem2 with rfl | hmem3
    · rfl
    · simp at hmem3

lemma extract_field_amount_shape (text : List Char) (ft : String)
    (hft : ft = "total_amount" ∨ ft = "tax_amount" ∨ ft = "subtotal")
    (v : List Char) (c : ℚ) (h : extract_field text ft = (some v, c)) :
    amtShape v ∧ v ≠ [] := by
  obtain ⟨j, pat, cap, hget, hmem, hsearch, _, hv, _, _⟩ :=
    extractFieldAux_fst_some text (PATTERNS ft) 0 v c h
  have hgrp := amount_pat_grp ft hft pat hmem
  obtain ⟨r, rem, hin⟩ := search_some pat text cap hsearch
  rw [hgrp] at hin
  have hshape := amtGrp_shape r cap rem hin
  have hstrip : pyStrip cap = cap := pyStrip_eq_self cap (amtShape_no_wsp hshape)
  rw [hv, hstrip]
  exact ⟨hshape, amtShape_ne_nil hshape⟩

/-! ### `extract_amounts` never fails -/

lemma amountKey_ok (text : List Char) (ft : String)
    (hft : ft = "total_amount" ∨ ft = "tax_amount" ∨ ft = "subtotal") :
    ∃ o, amountKey text ft = .ok o ∧
      (o.isSome ↔ ((extract_field text ft).1).isSome) ∧
      ∀ v c, o = some (v, c) → 0 ≤ v := by
  cases h1 : (extract_field text ft).1 with
  | none =>
    refine ⟨none, amountKey_of_none text ft h1, by simp [h1], by simp⟩
  | some s =>
    have hpair : extract_field text ft = (some s, (extract_field text ft).2) := by
      rw [← h1]
    obtain ⟨hshape, hne⟩ := extract_field_amount_shape text ft hft s _ hpair
    have hempty : s.isEmpty = false := by
      cases s with
      | nil => exact absurd rfl hne
      | cons a t => rfl
    obtain ⟨q, hq, hq0⟩ := pyFloat_amt s hshape
    refine ⟨some (q, (extract_field text ft).2),
      amountKey_of_some text ft s q h1 hempty hq, by simp [h1], ?_⟩
    intro v c hvc
    rw [Option.some.injEq, Prod.mk.injEq] at hvc
    rw [← hvc.1]
    exact hq0

lemma extract_amounts_ok (text : List Char) :
    ∃ am, extract_amounts text = .ok am ∧
      (am.total.isSome ↔ ((extract_field text "total_amount").1).isSome) ∧
      (am.tax.isSome ↔ ((extract_field text "tax_amount").1).isSome) ∧
      (am.subtotal.isSome ↔ ((extract_field text "subtotal").1).isSome) ∧
      0 ≤ amountOr0 am.total ∧ 0 ≤ amountOr0 am.tax ∧
      0 ≤ amountOr0 am.subtotal := by
  obtain ⟨t, ht, hti, htv⟩ := amountKey_ok text "total_amount" (by simp)
  obtain ⟨x, hx, hxi, hxv⟩ := amountKey_ok text "tax_amount" (by simp)
  obtain ⟨s, hs, hsi, hsv⟩ := amountKey_ok text "subtotal" (by simp)
  refine ⟨⟨t, x, s⟩, extract_amounts_eq text t x s ht hx hs, hti, hxi, hsi,
    ?_, ?_, ?_⟩
  · cases t with
    | none => simp [amountOr0]
    | some tv => exact htv tv.1 tv.2 (by rw [Prod.mk.eta])
  · cases x with
    | none => simp [amountOr0]
    | some tv => exact hxv tv.1 tv.2 (by rw [Prod.mk.eta])
  · cases s with
    | none => simp [amountOr0]
    | some tv => exact hsv tv.1 tv.2 (by rw [Prod.mk.eta])

/-! ### Vendor-name scan as a first-match search -/

lemma vendorScan_eq_find (lines : List (List Char)) :
    vendorScan lines =
      match lines.find? vendorOk with
      | some l => (pyStrip l, 7 / 10)
      | none => ([], 0) := by
  induction lines with
  | nil => rfl
  | cons l rest ih =>
    cases hv : vendorOk l with
    | true => rw [vendorScan_cons_true l rest hv, List.find?_cons_of_pos _ hv]
    | false => rw [vendorScan_cons_false l rest hv, List.find?_cons_of_neg _ (by simp [hv]), ih]

lemma vendorScan_all_false (lines : List (List Char))
    (h : ∀ l ∈ lines, vendorOk l = false) : vendorScan lines = ([], 0) := by
  induction lines with
  | nil => rfl
  | cons l rest ih =>
    rw [vendorScan_cons_false l rest (h l (by simp))]
    exact ih fun l2 hl2 => h l2 (by simp [hl2])

lemma extractFieldAux_all_none (text : List Char) :
    ∀ (pats : List Pattern) (i : ℕ), (∀ p ∈ pats, search p text = none) →
      extractFieldAux text pats i = (none, 0) := by
  intro pats
  induction pats with
  | nil => intro i _; rfl
  | cons pat rest ih =>
    intro i h
    rw [extractFieldAux_cons_none _ _ _ _ (h pat (by simp))]
    exact ih _ fun p hp => h p (by simp [hp])

lemma PATTERNS_eq_nil (ft : String) (h : recognizedB ft = false) :
    PATTERNS ft = [] := by
  unfold PATTERNS
  split_ifs with h1 h2 h3 h4 h5 h6
  · exact absurd h (by simp [recognizedB, h1])
  · exact absurd h (by simp [recognizedB, h2])
  · exact absurd h (by simp [recognizedB, h3])
  · exact absurd h (by simp [recognizedB, h4])
  · exact absurd h (by simp [recognizedB, h5])
  · exact absurd h (by simp [recognizedB, h6])
  · rfl

lemma eif_file_name (p : List Char) (d : Except Unit (List Char)) :
    (extract_invoice_fields p d).file_name = pathName p := by
  cases d with
  | error e => rfl
  | ok raw =>
    cases hm : extract_amounts raw with
    | error e => simp only [extract_invoice_fields, hm]
    | ok am => simp only [extract_invoice_fields, hm]

lemma filter_pos_eq_filter_ne_zero (l : List ℚ) (h : ∀ c ∈ l, 0 ≤ c) :
    (l.filter fun c => decide (0 < c)) = l.filter fun c => decide (¬c = 0) := by
  induction l with
  | nil => rfl
  | cons a t ih =>
    have ha : 0 ≤ a := h a (by simp)
    have ht := ih fun c hc => h c (by simp [hc])
    by_cases h0 : a = 0
    · subst h0
      simp only [List.filter_cons, decide_eq_true_eq]
      rw [if_neg (by simp), if_neg (by simp), ht]
    · have hpos : 0 < a := lt_of_le_of_ne ha (Ne.symm h0)
      simp only [List.filter_cons, decide_eq_true_eq]
      rw [if_pos hpos, if_pos h0, ht]

lemma aggConfidence_bounds (l : List ℚ) (h : ∀ c ∈ l, c ≤ 1) :
    0 ≤ aggConfidence l ∧ aggConfidence l ≤ 1 := by
  unfold aggConfidence
  by_cases hnil : (l.filter fun c => decide (0 < c)) = []
  · rw [if_pos hnil]
    norm_num
  · rw [if_neg hnil]
    have hpos : ∀ c ∈ l.filter fun c => decide (0 < c), 0 < c := by
      intro c hc
      have := (List.mem_filter.mp hc).2
      simpa using this
    have hle : ∀ c ∈ l.filter fun c => decide (0 < c), c ≤ 1 := by
      intro c hc
      exact h c (List.mem_filter.mp hc).1
    have hlen : 0 < ((l.filter fun c => decide (0 < c)).length : ℚ) := by
      have := List.length_pos.mpr hnil
      exact_mod_cast this
    constructor
    · apply div_nonneg _ (le_of_lt hlen)
      exact List.sum_nonneg fun c hc => le_of_lt (hpos c hc)
    · rw [div_le_one hlen]
      have := List.sum_le_card_nsmul (l.filter fun c => decide (0 < c)) 1 hle
      simpa [nsmul_eq_mul] using this

/-! ### Auxiliary definitions used by the claim statements -/

/-- The six recognized field types (the keys of the pattern catalog). -/
def recognizedTypes : List String :=
  ["invoice_number", "invoice_date", "due_date", "total_amount",
   "tax_amount", "subtotal"]

/-- Every rule of a field type fails to match the text. -/
def allFail (pats : List Pattern) (text : List Char) : Bool :=
  pats.all fun p => (search p text).isNone

/-- The vendor-line qualification exactly as the spec words it: trimmed
length strictly between 5 and 100, lowercased content containing none of
the six stoplist keywords. -/
def vendorQualifies (line : List Char) : Bool :=
  decide (5 < (pyStrip line).length) && decide ((pyStrip line).length < 100) &&
    (["invoice".toList, "bill".toList, "receipt".toList, "quote".toList,
      "date:".toList, "invoice #".toList].all
      fun kw => !(containsSub kw ((pyStrip line).map Char.toLower)))

lemma vendorOk_eq_vendorQualifies (l : List Char) : vendorOk l = vendorQualifies l := by
  unfold vendorOk vendorQualifies stoplist
  by_cases h5 : 5 < (pyStrip l).length
  · have hne : (pyStrip l).isEmpty = false := by
      cases hp : pyStrip l with
      | nil => rw [hp] at h5; simp at h5
      | cons a t => rfl
    simp [hne, h5]
  · simp [h5]

/-- The vendor-name heuristic as claim C5 words it: scan at most the first
20 NON-EMPTY lines for the first qualifying line. -/
def extract_vendor_name_claimC5 (text : List Char) : List Char × ℚ :=
  match (((splitNl text).filter fun l => !l.isEmpty).take 20).find? vendorQualifies with
  | some l => (pyStrip l, 7 / 10)
  | none => ([], 0)

/-! ### Concrete inputs and their evaluations -/

/-- The end-to-end example text of the spec (claim C3). -/
def c3Text : List Char :=
  ("Invoice Number: INV-2024-001\nInvoice Date: 01/15/2024\nSubtotal: $100.00\nTax: $8.00\nTotal: $108.00").toList

/-- The record assembled from the C3 text (decoding succeeds). -/
def c3Inv : ExtractedInvoice :=
  extract_invoice_fields "invoice.pdf".toList (.ok c3Text)

lemma c3_num : extract_field c3Text "invoice_number" = (some "INV-2024-001".toList, 1) := by
  have h1 : search p_in1 c3Text = some "INV-2024-001".toList := by decide
  show extractFieldAux c3Text (PATTERNS "invoice_number") 0 = _
  rw [PATTERNS_invoice_number, extractFieldAux_cons_some _ _ _ _ _ h1,
    show pyStrip "INV-2024-001".toList = "INV-2024-001".toList from by decide]
  norm_num

lemma c3_date : extract_field c3Text "invoice_date" = (some "01/15/2024".toList, 1) := by
  have h1 : search p_id1 c3Text = some "01/15/2024".toList := by decide
  show extractFieldAux c3Text (PATTERNS "invoice_date") 0 = _
  rw [PATTERNS_invoice_date, extractFieldAux_cons_some _ _ _ _ _ h1,
    show pyStrip "01/15/2024".toList = "01/15/2024".toList from by decide]
  norm_num

lemma c3_due : extract_field c3Text "due_date" = (none, 0) := by
  show extractFieldAux c3Text (PATTERNS "due_date") 0 = _
  rw [PATTERNS_due_date, extractFieldAux_cons_none _ _ _ _ (by decide),
    extractFieldAux_cons_none _ _ _ _ (by decide), extractFieldAux_nil]

lemma c3_tot : extract_field c3Text "total_amount" = (some "100.00".toList, 1) := by
  have h1 : search p_t1 c3Text = some "100.00".toList := by decide
  show extractFieldAux c3Text (PATTERNS "total_amount") 0 = _
  rw [PATTERNS_total, extractFieldAux_cons_some _ _ _ _ _ h1,
    show pyStrip "100.00".toList = "100.00".toList from by decide]
  norm_num

lemma c3_tax : extract_field c3Text "tax_amount" = (some "8.00".toList, 1) := by
  have h1 : search p_x1 c3Text = some "8.00".toList := by decide
  show extractFieldAux c3Text (PATTERNS "tax_amount") 0 = _
  rw [PATTERNS_tax, extractFieldAux_cons_some _ _ _ _ _ h1,
    show pyStrip "8.00".toList = "8.00".toList from by decide]
  norm_num

lemma c3_sub : extract_field c3Text "subtotal" = (some "100.00".toList, 1) := by
  have h1 : search p_s1 c3Text = some "100.00".toList := by decide
  show extractFieldAux c3Text (PATTERNS "subtotal") 0 = _
  rw [PATTERNS_subtotal, extractFieldAux_cons_some _ _ _ _ _ h1,
    show pyStrip "100.00".toList = "100.00".toList from by decide]
  norm_num

lemma pyFloat_100 : pyFloat (removeAll '$' (removeAll ',' "100.00".toList)) = some 100 := by
  rw [show removeAll '$' (removeAll ',' "100.00".toList) =
      "100".toList ++ '.' :: ['0', '0'] from by decide]
  obtain ⟨h, _⟩ := pyFloat_of_shape "100".toList '0' '0' (by decide) (by decide) (by decide)
  rw [h, show digitsVal "100".toList = 100 from by decide,
    show digitsVal ['0', '0'] = 0 from by decide]
  norm_num

lemma pyFloat_8 : pyFloat (removeAll '$' (removeAll ',' "8.00".toList)) = some 8 := by
  rw [show removeAll '$' (removeAll ',' "8.00".toList) =
      "8".toList ++ '.' :: ['0', '0'] from by decide]
  obtain ⟨h, _⟩ := pyFloat_of_shape "8".toList '0' '0' (by decide) (by decide) (by decide)
  rw [h, show digitsVal "8".toList = 8 from by decide,
    show digitsVal ['0', '0'] = 0 from by decide]
  norm_num

lemma c3_amounts : extract_amounts c3Text = .ok ⟨some (100, 1), some (8, 1), some (100, 1)⟩ := by
  have htot : amountKey c3Text "total_amount" = .ok (some (100, 1)) := by
    have h := amountKey_of_some c3Text "total_amount" "100.00".toList 100
      (by rw [c3_tot]) (by decide) pyFloat_100
    rw [c3_tot] at h
    exact h
  have htax : amountKey c3Text "tax_amount" = .ok (some (8, 1)) := by
    have h := amountKey_of_some c3Text "tax_amount" "8.00".toList 8
      (by rw [c3_tax]) (by decide) pyFloat_8
    rw [c3_tax] at h
    exact h
  have hsub : amountKey c3Text "subtotal" = .ok (some (100, 1)) := by
    have h := amountKey_of_some c3Text "subtotal" "100.00".toList 100
      (by rw [c3_sub]) (by decide) pyFloat_100
    rw [c3_sub] at h
    exact h
  exact extract_amounts_eq _ _ _ _ htot htax hsub

lemma w4_field : extract_field "INV-7".toList "invoice_number" = (some "7".toList, 4 / 5) := by
  have h3 : search p_in3 "INV-7".toList = some "7".toList := by decide
  show extractFieldAux "INV-7".toList (PATTERNS "invoice_number") 0 = _
  rw [PATTERNS_invoice_number, extractFieldAux_cons_none _ _ _ _ (by decide),
    extractFieldAux_cons_none _ _ _ _ (by decide),
    extractFieldAux_cons_some _ _ _ _ _ h3,
    show pyStrip "7".toList = "7".toList from by decide]
  norm_num

lemma w7_tot : extract_field "Total: $5.00".toList "total_amount" = (some "5.00".toList, 1) := by
  have h1 : search p_t1 "Total: $5.00".toList = some "5.00".toList := by decide
  show extractFieldAux "Total: $5.00".toList (PATTERNS "total_amount") 0 = _
  rw [PATTERNS_total, extractFieldAux_cons_some _ _ _ _ _ h1,
    show pyStrip "5.00".toList = "5.00".toList from by decide]
  norm_num

lemma w7_tax : extract_field "Total: $5.00".toList "tax_amount" = (none, 0) := by
  show extractFieldAux "Total: $5.00".toList (PATTERNS "tax_amount") 0 = _
  rw [PATTERNS_tax, extractFieldAux_cons_none _ _ _ _ (by decide),
    extractFieldAux_cons_none _ _ _ _ (by decide),
    extractFieldAux_cons_none _ _ _ _ (by decide), extractFieldAux_nil]

lemma w7_sub : extract_field "Total: $5.00".toList "subtotal" = (none, 0) := by
  show extractFieldAux "Total: $5.00".toList (PATTERNS "subtotal") 0 = _
  rw [PATTERNS_subtotal, extractFieldAux_cons_none _ _ _ _ (by decide),
    extractFieldAux_cons_none _ _ _ _ (by decide), extractFieldAux_nil]

lemma pyFloat_5 : pyFloat (removeAll '$' (removeAll ',' "5.00".toList)) = some 5 := by
  rw [show removeAll '$' (removeAll ',' "5.00".toList) =
      "5".toList ++ '.' :: ['0', '0'] from by decide]
  obtain ⟨h, _⟩ := pyFloat_of_shape "5".toList '0' '0' (by decide) (by decide) (by decide)
  rw [h, show digitsVal "5".toList = 5 from by decide,
    show digitsVal ['0', '0'] = 0 from by decide]
  norm_num

lemma w7_amounts : extract_amounts "Total: $5.00".toList = .ok ⟨some (5, 1), none, none⟩ := by
  have htot : amountKey "Total: $5.00".toList "total_amount" = .ok (some (5, 1)) := by
    have h := amountKey_of_some "Total: $5.00".toList "total_amount" "5.00".toList 5
      (by rw [w7_tot]) (by decide) pyFloat_5
    rw [w7_tot] at h
    exact h
  exact extract_amounts_eq _ _ _ _ htot
    (amountKey_of_none _ _ (by rw [w7_tax])) (amountKey_of_none _ _ (by rw [w7_sub]))

lemma w10_field : extract_field "Tax: $12.34".toList "tax_amount" = (some "12.34".toList, 1) := by
  have h1 : search p_x1 "Tax: $12.34".toList = some "12.34".toList := by decide
  show extractFieldAux "Tax: $12.34".toList (PATTERNS "tax_amount") 0 = _
  rw [PATTERNS_tax, extractFieldAux_cons_some _ _ _ _ _ h1,
    show pyStrip "12.34".toList = "12.34".toList from by decide]
  norm_num

/-- C5 counterexample input: twenty newline characters, then a vendor line.
Its first twenty lines are all empty; the vendor line is line 21. -/
def c5Text : List Char := List.replicate 20 '\n' ++ "Acme Corporation".toList

/-- C2 counterexample input: a batch of two documents, the first of which
fails decoding. -/
def c2Files : List (List Char × Except Unit (List Char)) :=
  [("bad.pdf".toList, .error ()), ("good.pdf".toList, .ok [])]

lemma aggConfidence_eq_nonzero_mean (l : List ℚ) (h : ∀ c ∈ l, 0 ≤ c) :
    aggConfidence l =
      (let nz := l.filter fun c => decide (¬c = 0)
       if nz = [] then 0 else nz.sum / (nz.length : ℚ)) := by
  unfold aggConfidence
  rw [filter_pos_eq_filter_ne_zero l h]

/-! ### The claims -/

/-- Claim C1: for every document whose decoding succeeded, the record's
`confidence_score` equals the arithmetic mean of the non-zero contributions
among: the invoice-number rule confidence if a non-empty invoice number was
extracted else 0, the invoice-date rule confidence if a non-empty invoice
date was extracted else 0, and a fixed `0.8` if the extracted
`total_amount` is strictly greater than zero else 0; if all contributions
are zero, `confidence_score` equals 0. -/
theorem C1_confidence_aggregation (path raw : List Char) :
    (extract_invoice_fields path (.ok raw)).confidence_score =
      (let inv := extract_invoice_fields path (.ok raw)
       let contribs : List ℚ :=
         [if inv.invoice_number ≠ [] then (extract_field raw "invoice_number").2 else 0,
          if inv.invoice_date ≠ [] then (extract_field raw "invoice_date").2 else 0,
          if 0 < inv.total_amount then 8 / 10 else 0]
       let nz := contribs.filter fun c => decide (¬c = 0)
       if nz = [] then 0 else nz.sum / (nz.length : ℚ)) := by
  obtain ⟨am, ham, _, _, _, _, _, _⟩ := extract_amounts_ok raw
  rw [eif_ok path raw am ham]
  dsimp only
  apply aggConfidence_eq_nonzero_mean
  intro c hc
  simp only [List.mem_cons, List.not_mem_nil, or_false] at hc
  rcases hc with rfl | rfl | rfl
  · split_ifs
    · exact (extract_field_conf_bounds raw "invoice_number").1
    · exact le_refl 0
  · split_ifs
    · exact (extract_field_conf_bounds raw "invoice_date").1
    · exact le_refl 0
  · split_ifs
    · norm_num
    · exact le_refl 0

/-- Claim C2 counterexample: a two-document batch whose first document
fails decoding yields 2 records, not the claimed N−1 = 1: the failing
document is not skipped from the output. -/
theorem C2_counterexample :
    (extract_multiple_invoices c2Files).length = 2 ∧
    ¬(extract_multiple_invoices c2Files).length = 2 - 1 := by
  constructor
  · rfl
  · intro h
    rw [show (extract_multiple_invoices c2Files).length = 2 from rfl] at h
    exact absurd h (by norm_num)

/-- Claim C2 amended: a batch of N input documents yields N records — the
loop calls `extract_invoice_fields`, which catches every exception
internally, so a document whose decoding fails is logged inside that call
and still contributes a record (file name set, every other field at its
default), rather than being skipped or raised. -/
theorem C2_amended (files : List (List Char × Except Unit (List Char))) :
    (extract_multiple_invoices files).length = files.length ∧
    ∀ p, (p, Except.error ()) ∈ files →
      defaultInvoice (pathName p) ∈ extract_multiple_invoices files := by
  constructor
  · simp [extract_multiple_invoices]
  · intro p hp
    rw [← eif_error p]
    exact List.mem_map.mpr ⟨(p, .error ()), hp, rfl⟩

/-- Witness for the amended C2 at a concrete one-document batch. -/
theorem C2_amended_witness :
    (extract_multiple_invoices [("bad.pdf".toList, Except.error ())]).length =
      [("bad.pdf".toList, (Except.error () : Except Unit (List Char)))].length ∧
    defaultInvoice (pathName "bad.pdf".toList) ∈
      extract_multiple_invoices [("bad.pdf".toList, Except.error ())] := by
  have h := C2_amended [("bad.pdf".toList, Except.error ())]
  exact ⟨h.1, h.2 "bad.pdf".toList (by simp)⟩

/-- Claim C3 (code bug): on the spec's end-to-end example text the code
extracts `total_amount = 100.00`, not the specified `108.00`, because the
case-insensitive `Total` pattern first matches the substring `total` inside
`Subtotal: $100.00`; the other specified fields and the confidence range do
hold. -/
theorem C3_end_to_end :
    c3Inv.invoice_number = "INV-2024-001".toList ∧
    c3Inv.invoice_date = "01/15/2024".toList ∧
    c3Inv.subtotal = 100 ∧ c3Inv.tax_amount = 8 ∧
    c3Inv.total_amount = 100 ∧ ¬c3Inv.total_amount = 108 ∧
    8 / 10 < c3Inv.confidence_score ∧ c3Inv.confidence_score < 1 := by
  have hfilter : List.filter (fun c => decide (0 < c)) [(1 : ℚ), 1, 8 / 10] =
      [(1 : ℚ), 1, 8 / 10] := by
    simp only [List.filter_cons, List.filter_nil, decide_eq_true_eq]
    rw [if_pos (by norm_num), if_pos (by norm_num), if_pos (by norm_num)]
  have hagg : aggConfidence [(1 : ℚ), 1, 8 / 10] = 14 / 15 := by
    unfold aggConfidence
    rw [hfilter, if_neg (by simp)]
    norm_num
  have hrec : extract_invoice_fields "invoice.pdf".toList (.ok c3Text) =
      ⟨pathName "invoice.pdf".toList, "INV-2024-001".toList, "01/15/2024".toList,
       [], (extract_vendor_name c3Text).1, [], [], [], 100, 8, 100,
       "USD".toList, [], c3Text, 14 / 15⟩ := by
    rw [eif_ok _ _ _ c3_amounts, c3_num, c3_date, c3_due]
    dsimp only [amountOr0, Option.getD_some, Option.getD_none]
    rw [if_pos (show "INV-2024-001".toList ≠ ([] : List Char) from by decide),
      if_pos (show "01/15/2024".toList ≠ ([] : List Char) from by decide),
      if_pos (show (0 : ℚ) < 100 from by norm_num), hagg]
  have hinv : c3Inv =
      ⟨pathName "invoice.pdf".toList, "INV-2024-001".toList, "01/15/2024".toList,
       [], (extract_vendor_name c3Text).1, [], [], [], 100, 8, 100,
       "USD".toList, [], c3Text, 14 / 15⟩ := hrec
  rw [hinv]
  refine ⟨rfl, rfl, rfl, rfl, rfl, ?_, ?_, ?_⟩
  · show ¬(100 : ℚ) = 108
    norm_num
  · show (8 : ℚ) / 10 < 14 / 15
    norm_num
  · show (14 : ℚ) / 15 < 1
    norm_num

/-- Claim C4: for a recognized field type, `extract_field` tries the rules
in catalog order and stops at the first match; when the first matching
rule has 0-based index `j`, the confidence is `1 - 0.1 * j`, never
negative, and the value is the capture trimmed of whitespace. -/
theorem C4_rule_order_confidence (text : List Char) (ft : String)
    (hft : ft ∈ recognizedTypes) (v : List Char) (c : ℚ)
    (h : extract_field text ft = (some v, c)) :
    ∃ (j : ℕ) (pat : Pattern) (cap : List Char),
      (PATTERNS ft)[j]? = some pat ∧ search pat text = some cap ∧
      (∀ k pk, k < j → (PATTERNS ft)[k]? = some pk → search pk text = none) ∧
      c = 1 - (j : ℚ) / 10 ∧ 0 ≤ c ∧ v = pyStrip cap := by
  obtain ⟨j, pat, cap, hget, hmem, hsearch, hbefore, hv, hc, hlen⟩ :=
    extractFieldAux_fst_some text (PATTERNS ft) 0 v c h
  have hj2 : j ≤ 2 := by
    have := PATTERNS_length ft
    omega
  refine ⟨j, pat, cap, hget, hsearch, hbefore, ?_, ?_, hv⟩
  · rw [hc]
    push_cast
    ring
  · rw [hc]
    have h2 : ((0 + j : ℕ) : ℚ) ≤ 2 := by exact_mod_cast by omega
    have h0 : (0 : ℚ) ≤ ((0 + j : ℕ) : ℚ) := by exact_mod_cast Nat.zero_le _
    linarith

/-- Witness for C4: on `"INV-7"` the first two invoice-number rules fail
and the third matches with confidence `1 - 0.1 * 2 = 0.8`. -/
theorem C4_witness :
    "invoice_number" ∈ recognizedTypes ∧
    extract_field "INV-7".toList "invoice_number" = (some "7".toList, 4 / 5) ∧
    ∃ (j : ℕ) (pat : Pattern) (cap : List Char),
      (PATTERNS "invoice_number")[j]? = some pat ∧
      search pat "INV-7".toList = some cap ∧
      (∀ k pk, k < j → (PATTERNS "invoice_number")[k]? = some pk →
        search pk "INV-7".toList = none) ∧
      (4 / 5 : ℚ) = 1 - (j : ℚ) / 10 ∧ (0 : ℚ) ≤ 4 / 5 ∧ "7".toList = pyStrip cap :=
  ⟨by decide, w4_field,
   C4_rule_order_confidence "INV-7".toList "invoice_number" (by decide) _ _ w4_field⟩

/-- Claim C5 counterexample: on twenty newlines followed by
`"Acme Corporation"`, the code (which slices the first 20 lines, empty
ones included) finds nothing, while the claim's reading (first 20
NON-EMPTY lines) would return the vendor line. -/
theorem C5_counterexample :
    extract_vendor_name c5Text = ([], 0) ∧
    extract_vendor_name_claimC5 c5Text = ("Acme Corporation".toList, 7 / 10) ∧
    ¬extract_vendor_name c5Text = extract_vendor_name_claimC5 c5Text := by
  have hcode : extract_vendor_name c5Text = ([], 0) := by
    show vendorScan ((splitNl c5Text).take 20) = _
    rw [show (splitNl c5Text).take 20 = List.replicate 20 [] from by decide]
    apply vendorScan_all_false
    intro l hl
    rw [List.eq_of_mem_replicate hl]
    decide
  have hclaim : extract_vendor_name_claimC5 c5Text = ("Acme Corporation".toList, 7 / 10) := by
    unfold extract_vendor_name_claimC5
    rw [show (((splitNl c5Text).filter fun l => !l.isEmpty).take 20) =
        ["Acme Corporation".toList] from by decide,
      List.find?_cons_of_pos _ (by decide)]
    show (pyStrip "Acme Corporation".toList, (7 : ℚ) / 10) = _
    rw [show pyStrip "Acme Corporation".toList = "Acme Corporation".toList from by decide]
  refine ⟨hcode, hclaim, ?_⟩
  rw [hcode, hclaim]
  intro heq
  have := congrArg Prod.fst heq
  simp at this

/-- Claim C5 amended: `extract_vendor_name` scans the first 20 LINES of the
text (empty lines count toward the 20) and returns the first line among
them whose trimmed length is strictly between 5 and 100 and whose
lowercased content contains none of the stoplist keywords, with fixed
confidence 0.7; if no such line exists it returns the empty string with
confidence 0. -/
theorem C5_amended (text : List Char) :
    extract_vendor_name text =
      match ((splitNl text).take 20).find? vendorQualifies with
      | some l => (pyStrip l, 7 / 10)
      | none => ([], 0) := by
  show vendorScan ((splitNl text).take 20) = _
  rw [vendorScan_eq_find,
    show vendorOk = vendorQualifies from funext vendorOk_eq_vendorQualifies]

/-- Claim C6: `extract_field` is total; an unrecognized field type yields
`(none, 0)`, and a recognized field type none of whose rules match
likewise yields `(none, 0)`. -/
theorem C6_no_match_and_unknown_type (text : List Char) (ft : String) :
    (recognizedB ft = false → extract_field text ft = (none, 0)) ∧
    (allFail (PATTERNS ft) text = true → extract_field text ft = (none, 0)) := by
  constructor
  · intro h
    show extractFieldAux text (PATTERNS ft) 0 = _
    rw [PATTERNS_eq_nil ft h, extractFieldAux_nil]
  · intro h
    show extractFieldAux text (PATTERNS ft) 0 = _
    apply extractFieldAux_all_none
    intro p hp
    have := List.all_eq_true.mp h p hp
    simpa [Option.isNone_iff_eq_none] using this

/-- Witness for C6: an unrecognized field type on nonempty text, and a
recognized field type on empty text. -/
theorem C6_witness :
    extract_field "hello".toList "bogus" = (none, 0) ∧
    extract_field "".toList "invoice_number" = (none, 0) :=
  ⟨(C6_no_match_and_unknown_type "hello".toList "bogus").1 (by decide),
   (C6_no_match_and_unknown_type "".toList "invoice_number").2 (by decide)⟩

/-- Claim C7: the mapping returned by `extract_amounts` has a key for an
amount type exactly when that field type's patterns produced a textual
match; an unmatched amount type is absent, never a zero placeholder. -/
theorem C7_absence_iff_no_match (text : List Char) (am : Amounts)
    (h : extract_amounts text = .ok am) :
    (am.total.isSome ↔ ((extract_field text "total_amount").1).isSome) ∧
    (am.tax.isSome ↔ ((extract_field text "tax_amount").1).isSome) ∧
    (am.subtotal.isSome ↔ ((extract_field text "subtotal").1).isSome) := by
  obtain ⟨am2, ham2, ht, hx, hs, _, _, _⟩ := extract_amounts_ok text
  rw [h] at ham2
  injection ham2 with h2
  subst h2
  exact ⟨ht, hx, hs⟩

/-- Witness for C7 at `"Total: $5.00"`: the total key is present, tax and
subtotal are absent. -/
theorem C7_witness :
    extract_amounts "Total: $5.00".toList = .ok ⟨some (5, 1), none, none⟩ ∧
    ((some ((5 : ℚ), (1 : ℚ))).isSome ↔
      ((extract_field "Total: $5.00".toList "total_amount").1).isSome) ∧
    ((none : Option (ℚ × ℚ)).isSome ↔
      ((extract_field "Total: $5.00".toList "tax_amount").1).isSome) ∧
    ((none : Option (ℚ × ℚ)).isSome ↔
      ((extract_field "Total: $5.00".toList "subtotal").1).isSome) := by
  have h := C7_absence_iff_no_match "Total: $5.00".toList ⟨some (5, 1), none, none⟩ w7_amounts
  exact ⟨w7_amounts, h.1, h.2.1, h.2.2⟩

/-- Claim C8: every record produced by `extract_invoice_fields` has its
confidence score in `[0, 1]` and nonnegative monetary fields. -/
theorem C8_invariants (path : List Char) (decoded : Except Unit (List Char)) :
    0 ≤ (extract_invoice_fields path decoded).confidence_score ∧
    (extract_invoice_fields path decoded).confidence_score ≤ 1 ∧
    0 ≤ (extract_invoice_fields path decoded).subtotal ∧
    0 ≤ (extract_invoice_fields path decoded).tax_amount ∧
    0 ≤ (extract_invoice_fields path decoded).total_amount := by
  cases decoded with
  | error e =>
    cases e
    rw [eif_error]
    unfold defaultInvoice
    norm_num
  | ok raw =>
    obtain ⟨am, ham, _, _, _, ht0, hx0, hs0⟩ := extract_amounts_ok raw
    rw [eif_ok path raw am ham]
    dsimp only
    have hle1 : ∀ c ∈
        [if (extract_field raw "invoice_number").1.getD [] ≠ [] then
           (extract_field raw "invoice_number").2 else 0,
         if (extract_field raw "invoice_date").1.getD [] ≠ [] then
           (extract_field raw "invoice_date").2 else 0,
         if 0 < amountOr0 am.total then 8 / 10 else 0], c ≤ 1 := by
      intro c hc
      simp only [List.mem_cons, List.not_mem_nil, or_false] at hc
      rcases hc with rfl | rfl | rfl
      · split_ifs
        · exact (extract_field_conf_bounds raw "invoice_number").2
        · norm_num
      · split_ifs
        · exact (extract_field_conf_bounds raw "invoice_date").2
        · norm_num
      · split_ifs <;> norm_num
    obtain ⟨hb0, hb1⟩ := aggConfidence_bounds _ hle1
    exact ⟨hb0, hb1, hs0, hx0, ht0⟩

/-- Claim C9: `extract_invoice_fields` always returns a record whose
`file_name` is the path's base name; a decode failure is caught internally
and yields the all-defaults record; consequently the batch operation
produces exactly one record per input file, failures included. -/
theorem C9_never_raises (path : List Char) (decoded : Except Unit (List Char))
    (files : List (List Char × Except Unit (List Char))) :
    (extract_invoice_fields path decoded).file_name = pathName path ∧
    (decoded = .error () → extract_invoice_fields path decoded =
      defaultInvoice (pathName path)) ∧
    (extract_multiple_invoices files).length = files.length := by
  refine ⟨eif_file_name path decoded, ?_, by simp [extract_multiple_invoices]⟩
  intro h
  rw [h]
  exact eif_error path

/-- Witness for C9 at a failing concrete path and a concrete batch. -/
theorem C9_witness :
    (extract_invoice_fields "dir/doc.pdf".toList (.error ())).file_name =
      pathName "dir/doc.pdf".toList ∧
    extract_invoice_fields "dir/doc.pdf".toList (.error ()) =
      defaultInvoice (pathName "dir/doc.pdf".toList) ∧
    (extract_multiple_invoices c2Files).length = c2Files.length := by
  have h := C9_never_raises "dir/doc.pdf".toList (.error ()) c2Files
  exact ⟨h.1, h.2.1 rfl, h.2.2⟩

/-- Claim C10: `extract_amounts` never raises — every capture of the
amount patterns is digits-and-commas followed by a dot and two digits, so
after removing `,` and `$` it always parses, and the whole operation
always returns `ok`. -/
theorem C10_amounts_never_raise (text : List Char) :
    (∀ ft, (ft = "total_amount" ∨ ft = "tax_amount" ∨ ft = "subtotal") →
      ∀ v c, extract_field text ft = (some v, c) →
        amtShape v ∧ (pyFloat (removeAll '$' (removeAll ',' v))).isSome = true) ∧
    ∃ am, extract_amounts text = Except.ok am := by
  constructor
  · intro ft hft v c h
    obtain ⟨hshape, _⟩ := extract_field_amount_shape text ft hft v c h
    obtain ⟨q, hq, _⟩ := pyFloat_amt v hshape
    refine ⟨hshape, ?_⟩
    rw [hq]
    rfl
  · obtain ⟨am, ham, _⟩ := extract_amounts_ok text
    exact ⟨am, ham⟩

/-- Witness for C10 at `"Tax: $12.34"`. -/
theorem C10_witness :
    ("tax_amount" = "total_amount" ∨ "tax_amount" = "tax_amount" ∨
      "tax_amount" = "subtotal") ∧
    extract_field "Tax: $12.34".toList "tax_amount" = (some "12.34".toList, 1) ∧
    (amtShape "12.34".toList ∧
      (pyFloat (removeAll '$' (removeAll ',' "12.34".toList))).isSome = true) ∧
    ∃ am, extract_amounts "Tax: $12.34".toList = Except.ok am := by
  have h := C10_amounts_never_raise "Tax: $12.34".toList
  exact ⟨Or.inr (Or.inl rfl), w10_field,
    h.1 "tax_amount" (Or.inr (Or.inl rfl)) _ _ w10_field, h.2⟩

end PdfProc
